import Mathlib

/-!
Verification of the `runtime` command layer of the micro CLI
(`runtime/service.go`): intent resolution, environment composition,
backend lifecycle orchestration (run / kill / ps-get), the local-mode
signal-driven shutdown sequence, and the service table renderer.

The Go code is shallowly embedded: each command function becomes a pure
Lean function from a command context (flags and positional arguments), a
backend behaviour (the results each backend call would return), and the
outcome of the one `os.Chdir` side effect, to a `CmdResult` recording
the ordered trace of backend calls, the diagnostics printed, and the
table rows written.  Go standard-library string operations used by the
code (`strings.Split`, `strings.TrimSpace`, `strings.HasPrefix`,
`filepath.Base`, string comparison) are embedded as structurally
recursive functions on `List Char` so that every definition evaluates
inside the kernel.  Whitespace is modelled for the Latin-1 range of
Go's `unicode.IsSpace`; Go compares strings byte-wise, which for valid
UTF-8 coincides with the code-point-wise comparison used here.
-/

/-- Go `unicode.IsSpace`, restricted to the Latin-1 range (space, tab,
newline, vertical tab, form feed, carriage return, NEL, NBSP). -/
def goIsSpace (c : Char) : Bool :=
  c == ' ' || c == '\t' || c == '\n' || c == '\x0b' || c == '\x0c' ||
  c == '\x0d' || c == '\x85' || c == '\xa0'

/-- Drop leading and trailing whitespace from a character list. -/
def trimChars (l : List Char) : List Char :=
  ((l.dropWhile goIsSpace).reverse.dropWhile goIsSpace).reverse

/-- Go `strings.TrimSpace`. -/
def goTrimSpace (s : String) : String := String.mk (trimChars s.data)

/-- Go `strings.Split(s, ",")` on character lists: split at every comma,
keeping empty segments (`Split("", ",")` is `[""]`). -/
def splitCommaChars : List Char → List (List Char)
  | [] => [[]]
  | c :: cs =>
    match splitCommaChars cs, c == ',' with
    | rest, true => [] :: rest
    | [], false => [[c]]
    | g :: gs, false => (c :: g) :: gs

/-- Go `strings.Split(s, ",")`. -/
def goSplitComma (s : String) : List String :=
  (splitCommaChars s.data).map String.mk

/-- One character list is an initial segment of another. -/
def leadsWith : List Char → List Char → Bool
  | [], _ => true
  | _ :: _, [] => false
  | p :: ps, c :: cs => p == c && leadsWith ps cs

/-- Go `strings.HasPrefix s pre`. -/
def goHasPre (s pre : String) : Bool := leadsWith pre.data s.data

/-- Lexicographic (code-point) order on character lists; Go's `<=` on
strings, byte-wise on UTF-8, orders identically. -/
def charsLe : List Char → List Char → Bool
  | [], _ => true
  | _ :: _, [] => false
  | a :: as, b :: bs =>
    if a.toNat < b.toNat then true
    else if b.toNat < a.toNat then false
    else charsLe as bs

/-- The characters after the last slash once trailing slashes are
stripped: working on the reversed path, drop the leading slashes, then
take up to the next slash, and reverse back. -/
def baseChars (l : List Char) : List Char :=
  ((l.reverse.dropWhile (fun c => c == '/')).takeWhile (fun c => !(c == '/'))).reverse

/-- Go `filepath.Base` on a Unix platform: `"."` for the empty path,
strip trailing slashes, take the part after the last slash, and `"/"`
when only slashes remain. -/
def basepath (path : String) : String :=
  if path = "" then "."
  else if baseChars path.data = [] then "/"
  else String.mk (baseChars path.data)

/-- A service description (`runtime.Service`): name, version, source and
backend-populated metadata, embedded as an association list. -/
structure Service where
  name : String
  version : String
  source : String
  metadata : List (String × String)
deriving DecidableEq

/-- Go map lookup `m[k]` with the zero value `""` for a missing key. -/
def mlookup (m : List (String × String)) (k : String) : String :=
  match m.find? (fun p => p.1 == k) with
  | some p => p.2
  | none => ""

/-- A read query as assembled by `getService`: `ReadService`,
`ReadVersion` and `ReadType` options. -/
structure ReadQuery where
  service : Option String
  version : Option String
  typ : Option String
deriving DecidableEq

/-- One observable backend (or notifier) call made by a command. -/
inductive Event where
  | init (name version source : String)
  | start
  | stop
  | waitSignal
  | create (s : Service) (exec : List String) (env : List String)
  | delete (s : Service)
  | listSvcs
  | readSvcs (q : ReadQuery)
deriving DecidableEq

/-- The behaviour of the selected backend: the result each call would
return (`none` / `Except.ok` for success, the error text otherwise). -/
structure Backend where
  initRes : Option String
  startRes : Option String
  createRes : Option String
  deleteRes : Option String
  stopRes : Option String
  listRes : Except String (List Service)
  readRes : ReadQuery → Except String (List Service)

/-- The command context: positional arguments, flag values, the current
working directory and the ambient process environment. -/
structure Ctx where
  args : List String
  name : String
  version : String
  source : String
  env : List String
  localMode : Bool
  runtimeFlag : Bool
  cwd : String
  environ : List String

/-- What a command invocation did: the ordered trace of backend calls,
the diagnostics printed, and the table rows written (header included). -/
structure CmdResult where
  trace : List Event
  printed : List String
  table : List (List String)
deriving DecidableEq

/-- `RunUsage` message for the run command. -/
def RunUsage : String :=
  "Required usage: micro run service --name example --version latest --source go/package/import/path"

/-- `KillUsage` message for the kill command. -/
def KillUsage : String :=
  "Require usage: micro kill service --name example (optional: --version latest)"

/-- `GetUsage` message for the ps/get command. -/
def GetUsage : String :=
  "Require usage: micro ps service --name example (optional: --version latest)"

/-- `defaultEnv`: every ambient variable whose `KEY=VALUE` string starts
with the reserved `MICRO_` configuration marker. -/
def defaultEnv (environ : List String) : List String :=
  environ.filter (fun evar => goHasPre evar "MICRO_")

/-- The env-flag loop of `runService` (lines 130-136): for each flag
entry, split on comma and, for each segment that is non-empty BEFORE
trimming, append the trimmed segment. -/
def appendEnvFlags (base : List String) (env : List String) : List String :=
  env.foldl
    (fun acc evar =>
      (goSplitComma evar).foldl
        (fun acc2 e => if e.length > 0 then acc2 ++ [goTrimSpace e] else acc2)
        acc)
    base

/-- The source after the positional-argument override: the first
positional argument unless it is the reserved literal `"service"`, in
which case the `--source` flag value stands. -/
def resolvedSource (ctx : Ctx) : String :=
  if ctx.args.headD "" = "service" then ctx.source else ctx.args.headD ""

/-- Name resolution of `runService` (lines 71-78): an explicit `--name`
wins; otherwise the base of `source` when non-empty, else the base of
the current working directory. -/
def resolveName (nameFlag source cwd : String) : String :=
  if nameFlag = "" then
    if source = "" then basepath cwd else basepath source
  else nameFlag

/-- The local-mode execution command (lines 86-93): `go run .`, with the
third word rewritten to `source` only when `source` is non-empty and
`os.Chdir(source)` failed. -/
def localExec (source : String) (chdirOk : Bool) : List String :=
  if source = "" then ["go", "run", "."]
  else if chdirOk then ["go", "run", "."]
  else ["go", "run", source]

/-- The service description `runService` hands to Create / Delete. -/
def mkService (ctx : Ctx) : Service :=
  ⟨resolveName ctx.name (resolvedSource ctx) ctx.cwd, ctx.version,
    resolvedSource ctx, []⟩

/-- The environment `runService` hands to Create: the `MICRO_`-marked
ambient variables followed by the processed env-flag entries. -/
def composedEnv (ctx : Ctx) : List String :=
  appendEnvFlags (defaultEnv ctx.environ) ctx.env

/-- `runService` (lines 42-171).  The trace records each backend call in
program order; `Event.waitSignal` marks the blocking wait on the
shutdown channel (the model proceeds once the one signal arrives);
`chdirOk` is whether `os.Chdir(source)` succeeded. -/
def runService (ctx : Ctx) (b : Backend) (chdirOk : Bool) : CmdResult :=
  if ctx.args = [] then ⟨[], [RunUsage], []⟩
  else
    let source := resolvedSource ctx
    let name := resolveName ctx.name source ctx.cwd
    let service := mkService ctx
    let environment := composedEnv ctx
    match ctx.localMode with
    | true =>
      let exec := localExec source chdirOk
      match b.initRes with
      | some e =>
        ⟨[Event.init name ctx.version source],
          ["Could not start notifier: " ++ e], []⟩
      | none =>
        match b.startRes with
        | some e =>
          ⟨[Event.init name ctx.version source, Event.start],
            ["Could not start: " ++ e], []⟩
        | none =>
          match b.createRes with
          | some e =>
            ⟨[Event.init name ctx.version source, Event.start,
                Event.create service exec environment], [e], []⟩
          | none =>
            match b.deleteRes with
            | some e =>
              ⟨[Event.init name ctx.version source, Event.start,
                  Event.create service exec environment, Event.waitSignal,
                  Event.delete service], [e], []⟩
            | none =>
              match b.stopRes with
              | some e =>
                ⟨[Event.init name ctx.version source, Event.start,
                    Event.create service exec environment, Event.waitSignal,
                    Event.delete service, Event.stop], [e], []⟩
              | none =>
                ⟨[Event.init name ctx.version source, Event.start,
                    Event.create service exec environment, Event.waitSignal,
                    Event.delete service, Event.stop], [], []⟩
    | false =>
      if source = "" then ⟨[], [RunUsage], []⟩
      else
        let exec := ["go", "run", source]
        match b.startRes with
        | some e => ⟨[Event.start], ["Could not start: " ++ e], []⟩
        | none =>
          match b.createRes with
          | some e =>
            ⟨[Event.start, Event.create service exec environment], [e], []⟩
          | none =>
            ⟨[Event.start, Event.create service exec environment], [], []⟩

/-- `killService` (lines 173-207): requires the positional literal
`"service"` and a non-empty `--name`, then calls backend Delete. -/
def killService (ctx : Ctx) (b : Backend) : CmdResult :=
  if !(ctx.args.headD "" = "service") then ⟨[], [KillUsage], []⟩
  else if ctx.name = "" then ⟨[], [KillUsage], []⟩
  else
    let service : Service := ⟨ctx.name, ctx.version, "", []⟩
    match b.deleteRes with
    | some e => ⟨[Event.delete service], [e], []⟩
    | none => ⟨[Event.delete service], [], []⟩

/-- `parse` inside `getService` (lines 273-278): replace the empty
string by the sentinel `"n/a"`. -/
def parse (m : String) : String := if m.length = 0 then "n/a" else m

/-- One table row for a service (lines 290-296): NAME verbatim, the
other columns through `parse`, METADATA synthesized from owner/group. -/
def renderRow (s : Service) : List String :=
  [s.name, parse s.version, parse s.source,
    parse (mlookup s.metadata "status"), parse (mlookup s.metadata "build"),
    "owner=" ++ parse (mlookup s.metadata "owner") ++ ",group=" ++
      parse (mlookup s.metadata "group")]

/-- The header row written before the service rows (line 288). -/
def headerRow : List String :=
  ["NAME", "VERSION", "SOURCE", "STATUS", "BUILD", "METADATA"]

/-- Service order used by the table: ascending by name (line 285). -/
def nameLe (a b : Service) : Bool := charsLe a.name.data b.name.data

/-- Insert a service into a name-sorted list. -/
def insertByName (s : Service) : List Service → List Service
  | [] => [s]
  | t :: ts => if nameLe s t then s :: t :: ts else t :: insertByName s ts

/-- The sort of line 285 (`sort.Slice` by name ascending), embedded as
an insertion sort; the claims proved about it (ascending names, one row
per input service) hold of any correct sort by name. -/
def sortServices : List Service → List Service
  | [] => []
  | s :: ss => insertByName s (sortServices ss)

/-- The table written by `getService` (lines 280-298): nothing at all
for an empty service list, otherwise the header row followed by one row
per service in name order. -/
def renderTable (services : List Service) : List (List String) :=
  if services = [] then []
  else headerRow :: (sortServices services).map renderRow

/-- Whether an event is the backend `Start` call. -/
def isStart : Event → Bool
  | Event.start => true
  | _ => false

/-- Whether an event is a lifecycle operation (Create, Delete, List or
Read) as opposed to Start/Stop/notifier/signal events. -/
def isLifecycle : Event → Bool
  | Event.create _ _ _ => true
  | Event.delete _ => true
  | Event.listSvcs => true
  | Event.readSvcs _ => true
  | _ => false

/-- No lifecycle operation occurs before the first `Start` call of a
trace (vacuously true when the trace has no lifecycle operation). -/
def startPrecedesLifecycle (t : List Event) : Bool :=
  (t.takeWhile (fun e => !isStart e)).all (fun e => !isLifecycle e)

/-- Modelled from the spec: the spec's reading of the env-flag loop, in
which each entry is split on commas, every segment is trimmed, and
segments that are empty AFTER trimming (whitespace-only included) are
discarded.  Kept solely for comparison with `appendEnvFlags`, which
embeds the code. -/
def specExtraSegments (env : List String) : List String :=
  env.foldl
    (fun acc evar =>
      acc ++ ((goSplitComma evar).map goTrimSpace).filter (fun e => e.length > 0))
    []

/-- A backend on which every call succeeds and no service is known. -/
def okBackend : Backend :=
  ⟨none, none, none, none, none, Except.ok [], fun _ => Except.ok []⟩

/-- A backend whose `Delete` fails with `"boom"`. -/
def failDeleteBackend : Backend :=
  ⟨none, none, none, some "boom", none, Except.ok [], fun _ => Except.ok []⟩

/-- A fully annotated service named `"a"`. -/
def svcA : Service := ⟨"a", "1", "src/a", [("status", "running")]⟩

/-- A bare service named `"b"`. -/
def svcB : Service := ⟨"b", "", "", []⟩

/-- A backend whose `List` returns `svcB` then `svcA`. -/
def listBackend : Backend :=
  ⟨none, none, none, none, none, Except.ok [svcB, svcA], fun _ => Except.ok []⟩

/-- `run service --source github.com/acme/svc` in remote mode. -/
def ctxRemoteSvc : Ctx :=
  ⟨["service"], "", "", "github.com/acme/svc", [], false, false, "/work", []⟩

/-- `run --source github.com/acme/svc` with no positional argument. -/
def ctxRemoteNoArgs : Ctx :=
  ⟨[], "", "", "github.com/acme/svc", [], false, false, "/work", []⟩

/-- `run service --name demo --local` with no source. -/
def ctxLocalDemo : Ctx :=
  ⟨["service"], "demo", "", "", [], true, false, "/work", []⟩

/-- `run service --source /svc --local` (an existing directory). -/
def ctxLocalChdir : Ctx :=
  ⟨["service"], "", "", "/svc", [], true, false, "/work", []⟩

/-- `kill service --name demo --local`. -/
def ctxKillDemo : Ctx :=
  ⟨["service"], "demo", "", "", [], true, false, "/work", []⟩

/-- `ps` with no positional argument (list mode). -/
def ctxPsList : Ctx :=
  ⟨[], "", "", "", [], false, false, "/work", []⟩

/-- `ps service` with no `--name`. -/
def ctxPsService : Ctx :=
  ⟨["service"], "", "", "", [], false, false, "/work", []⟩

/-- `run service` in remote mode with no source at all. -/
def ctxRemoteEmptySource : Ctx :=
  ⟨["service"], "", "", "", [], false, false, "/work", []⟩

/-- `getService` (lines 209-299). -/
def getService (ctx : Ctx) (b : Backend) : CmdResult :=
  let isList := !(ctx.args.headD "" = "service")
  if isList then
    let pair : Event × Except String (List Service) :=
      if ctx.runtimeFlag then
        let q : ReadQuery := ⟨none, none, some "runtime"⟩
        ⟨Event.readSvcs q, b.readRes q⟩
      else ⟨Event.listSvcs, b.listRes⟩
    match pair.2 with
    | Except.error e => ⟨[pair.1], [e], []⟩
    | Except.ok services => ⟨[pair.1], [], renderTable services⟩
  else if ctx.name = "" then ⟨[], [GetUsage], []⟩
  else
    let q : ReadQuery :=
      ⟨some ctx.name, some ctx.version,
        if ctx.runtimeFlag then some "runtime" else none⟩
    match b.readRes q with
    | Except.error e => ⟨[Event.readSvcs q], [e], []⟩
    | Except.ok services => ⟨[Event.readSvcs q], [], renderTable services⟩

/-! ### Order, permutation and sortedness of the table sort -/

theorem charsLe_trans : ∀ a b c, charsLe a b = true → charsLe b c = true → charsLe a c = true := by
  intro a
  induction a with
  | nil => intro b c _ _; rfl
  | cons x xs ih =>
    intro b c hab hbc
    match b, c with
    | [], _ => simp [charsLe] at hab
    | _ :: _, [] => simp [charsLe] at hbc
    | y :: ys, z :: zs =>
      simp only [charsLe] at hab hbc ⊢
      split_ifs at hab hbc ⊢ <;>
        first
          | rfl
          | exact absurd hab (by decide)
          | exact absurd hbc (by decide)
          | (exfalso; omega)
          | exact ih ys zs hab hbc

theorem charsLe_total : ∀ a b, charsLe a b = true ∨ charsLe b a = true := by
  intro a
  induction a with
  | nil => intro b; left; rfl
  | cons x xs ih =>
    intro b
    cases b with
    | nil => right; rfl
    | cons y ys =>
      simp only [charsLe]
      split_ifs <;>
        first
          | (left; rfl)
          | (right; rfl)
          | (exfalso; omega)
          | exact ih ys

theorem nameLe_trans {a b c : Service} (h1 : nameLe a b = true) (h2 : nameLe b c = true) :
    nameLe a c = true := charsLe_trans _ _ _ h1 h2

theorem nameLe_total (a b : Service) : nameLe a b = true ∨ nameLe b a = true :=
  charsLe_total _ _

theorem insertByName_perm (s : Service) : ∀ l, (insertByName s l).Perm (s :: l) := by
  intro l
  induction l with
  | nil => exact List.Perm.refl _
  | cons t ts ih =>
    simp only [insertByName]
    split
    · exact List.Perm.refl _
    · exact (ih.cons t).trans (List.Perm.swap s t ts)

theorem sortServices_perm : ∀ l, (sortServices l).Perm l := by
  intro l
  induction l with
  | nil => exact List.Perm.refl _
  | cons s ss ih => exact (insertByName_perm s (sortServices ss)).trans (ih.cons s)

theorem insertByName_pairwise (s : Service) :
    ∀ l, l.Pairwise (fun a b => nameLe a b = true) →
      (insertByName s l).Pairwise (fun a b => nameLe a b = true) := by
  intro l
  induction l with
  | nil => intro _; simp [insertByName]
  | cons t ts ih =>
    intro h
    rcases List.pairwise_cons.mp h with ⟨ht, hts⟩
    simp only [insertByName]
    split
    case isTrue hle =>
      refine List.pairwise_cons.mpr ⟨?_, h⟩
      intro u hu
      rcases List.mem_cons.mp hu with rfl | hu'
      · exact hle
      · exact nameLe_trans hle (ht u hu')
    case isFalse hgt =>
      refine List.pairwise_cons.mpr ⟨?_, ih hts⟩
      intro u hu
      have hu2 := (insertByName_perm s ts).mem_iff.mp hu
      rcases List.mem_cons.mp hu2 with rfl | hu'
      · rcases nameLe_total t u with h1 | h1
        · exact h1
        · exact absurd h1 hgt
      · exact ht u hu'

theorem sortServices_pairwise : ∀ l, (sortServices l).Pairwise (fun a b => nameLe a b = true) := by
  intro l
  induction l with
  | nil => exact List.Pairwise.nil
  | cons s ss ih => exact insertByName_pairwise s (sortServices ss) ih

/-! ### Trace shape of the three commands -/

theorem run_start_first : ∀ ctx b cOk, startPrecedesLifecycle (runService ctx b cOk).trace = true := by
  intro ctx b cOk
  unfold runService
  by_cases hsrc : resolvedSource ctx = "" <;>
    (repeat' split) <;>
    simp [hsrc, startPrecedesLifecycle, List.takeWhile_cons, isStart, isLifecycle]

theorem kill_no_start : ∀ ctx b, (killService ctx b).trace.all (fun e => !isStart e) = true := by
  intro ctx b
  unfold killService
  repeat' split
  all_goals simp [isStart]

theorem get_no_start : ∀ ctx b, (getService ctx b).trace.all (fun e => !isStart e) = true := by
  intro ctx b
  unfold getService
  by_cases hl : ctx.args.headD "" = "service" <;>
    by_cases hr : ctx.runtimeFlag = true <;>
    by_cases hn : ctx.name = "" <;>
    (repeat' split) <;>
    (try simp_all [isStart]) <;>
    (repeat' split) <;>
    simp_all [isStart]

theorem run_delete_fail : ∀ ctx b cOk s err,
    b.deleteRes = some err →
    Event.delete s ∈ (runService ctx b cOk).trace →
    Event.stop ∉ (runService ctx b cOk).trace ∧ err ∈ (runService ctx b cOk).printed := by
  intro ctx b cOk s err hdel hmem
  unfold runService at hmem ⊢
  by_cases hsrc : resolvedSource ctx = "" <;>
    (repeat' split at hmem) <;>
    simp_all

theorem run_stop_only_after_delete_ok : ∀ ctx b cOk,
    Event.stop ∈ (runService ctx b cOk).trace → b.deleteRes = none := by
  intro ctx b cOk hmem
  unfold runService at hmem
  by_cases hsrc : resolvedSource ctx = "" <;>
    (repeat' split at hmem) <;>
    simp_all

/-! ### Name resolution facts -/

theorem string_mk_ne_empty {l : List Char} (h : ¬ l = []) : ¬ String.mk l = "" := by
  intro hc
  apply h
  have h2 := congrArg String.data hc
  simpa using h2

theorem basepath_ne_empty (path : String) : ¬ basepath path = "" := by
  unfold basepath
  split_ifs with h1 h2
  · decide
  · decide
  · exact string_mk_ne_empty h2

theorem takeWhile_until_slash (r : List Char) :
    ∀ m : List Char, (∀ c ∈ m, ¬ c = '/') →
      List.takeWhile (fun c => !(c == '/')) (m ++ '/' :: r) = m := by
  intro m
  induction m with
  | nil => intro _; simp [List.takeWhile_cons]
  | cons c cs ih =>
    intro h
    have hc : ¬ c = '/' := h c (List.mem_cons_self c cs)
    have hb : (c == '/') = false := by simpa using hc
    simp [List.takeWhile_cons, hb, ih (fun d hd => h d (List.mem_cons_of_mem c hd))]

theorem dropWhile_no_slash_head (c : Char) (l : List Char) (h : ¬ c = '/') :
    List.dropWhile (fun c => c == '/') (c :: l) = c :: l := by
  have hb : (c == '/') = false := by simpa using h
  simp [List.dropWhile_cons, hb]

theorem data_empty : ("" : String).data = [] := rfl

theorem basepath_append_leaf (pre leaf : String) (h1 : ¬ leaf = "")
    (h2 : ∀ c ∈ leaf.data, ¬ c = '/') :
    basepath (pre ++ "/" ++ leaf) = leaf := by
  have hdata : (pre ++ "/" ++ leaf).data = pre.data ++ '/' :: leaf.data := by
    rw [String.data_append, String.data_append]
    simp
  have hld : ¬ leaf.data = [] := by
    intro hc
    apply h1
    have hmk : leaf = String.mk leaf.data := by cases leaf; rfl
    rw [hmk, hc]
  have hrevne : ¬ leaf.data.reverse = [] := by simpa using hld
  obtain ⟨c, cs, hcons⟩ := List.exists_cons_of_ne_nil hrevne
  have hrev : (pre ++ "/" ++ leaf).data.reverse
      = leaf.data.reverse ++ '/' :: pre.data.reverse := by
    rw [hdata]
    simp
  have hbase : baseChars (pre ++ "/" ++ leaf).data = leaf.data := by
    unfold baseChars
    rw [hrev, hcons, List.cons_append, dropWhile_no_slash_head, ← List.cons_append, ← hcons,
      takeWhile_until_slash, List.reverse_reverse]
    · intro d hd
      exact h2 d (List.mem_reverse.mp hd)
    · exact h2 c (List.mem_reverse.mp (hcons ▸ List.mem_cons_self c cs))
  have hpne : ¬ (pre ++ "/" ++ leaf) = "" := by
    intro hc
    rw [hc] at hdata
    rw [data_empty] at hdata
    exact List.noConfusion (List.append_eq_nil.mp hdata.symm).2
  unfold basepath
  rw [if_neg hpne, hbase, if_neg hld]

/-! ### Environment composition, in closed form -/

theorem envSegs_foldl (l : List String) : ∀ acc : List String,
    l.foldl (fun acc2 e => if e.length > 0 then acc2 ++ [goTrimSpace e] else acc2) acc
      = acc ++ (l.filter (fun e => decide (e.length > 0))).map goTrimSpace := by
  induction l with
  | nil => intro acc; simp
  | cons e es ih =>
    intro acc
    by_cases he : e.length > 0 <;>
      simp [List.foldl_cons, List.filter_cons, he, ih]

theorem appendEnvFlags_eq (env : List String) : ∀ base,
    appendEnvFlags base env
      = base ++ env.flatMap
          (fun evar => ((goSplitComma evar).filter (fun e => decide (e.length > 0))).map goTrimSpace) := by
  induction env with
  | nil => intro base; simp [appendEnvFlags]
  | cons evar evars ih =>
    intro base
    have h1 : appendEnvFlags base (evar :: evars)
        = appendEnvFlags
            (base ++ ((goSplitComma evar).filter (fun e => decide (e.length > 0))).map goTrimSpace)
            evars := by
      unfold appendEnvFlags
      rw [List.foldl_cons, envSegs_foldl]
    rw [h1, ih]
    simp [List.flatMap_cons, List.append_assoc]

/-! ### The claims -/

/-- Claim C1: in local run mode, after the termination signal is
received, a failing backend Delete is reported and the command returns
without ever calling backend Stop; Stop is called only when Delete
succeeds. -/
theorem claim_c1 :
    (∀ ctx b cOk s err,
      b.deleteRes = some err →
      Event.delete s ∈ (runService ctx b cOk).trace →
      Event.stop ∉ (runService ctx b cOk).trace ∧ err ∈ (runService ctx b cOk).printed) ∧
    (∀ ctx b cOk, Event.stop ∈ (runService ctx b cOk).trace → b.deleteRes = none) :=
  ⟨run_delete_fail, run_stop_only_after_delete_ok⟩

/-- Witness for C1: `run service --name demo --local` against a backend
whose Delete fails with `"boom"` reaches Delete, reports `"boom"` and
never calls Stop; and the Stop reached with the all-success backend
indeed had a successful Delete. -/
theorem claim_c1_witness :
    (Event.stop ∉ (runService ctxLocalDemo failDeleteBackend true).trace ∧
      "boom" ∈ (runService ctxLocalDemo failDeleteBackend true).printed) ∧
    okBackend.deleteRes = none :=
  ⟨claim_c1.1 ctxLocalDemo failDeleteBackend true ⟨"demo", "", "", []⟩ "boom" rfl (by decide),
   claim_c1.2 ctxLocalDemo okBackend true (by decide)⟩

/-- Claim C2: every remote-mode run whose resolved source is empty fails
on the missing-source guard — the usage diagnostic is printed and no
backend call at all (in particular no Create) is made. -/
theorem claim_c2 :
    ∀ ctx b cOk, ctx.localMode = false → resolvedSource ctx = "" →
      runService ctx b cOk = ⟨[], [RunUsage], []⟩ := by
  intro ctx b cOk hl hs
  unfold runService
  split
  · rfl
  · simp [hl, hs]

/-- Witness for C2: `run service` in remote mode with no source. -/
theorem claim_c2_witness :
    runService ctxRemoteEmptySource okBackend true = ⟨[], [RunUsage], []⟩ :=
  claim_c2 ctxRemoteEmptySource okBackend true rfl rfl

/-- Claim C3 (amended): in run invocations no lifecycle operation
precedes the first Start call, but kill and ps/get never call Start at
all — they issue Delete, List or Read directly against the selected
backend. -/
theorem claim_c3_amended :
    (∀ ctx b cOk, startPrecedesLifecycle (runService ctx b cOk).trace = true) ∧
    (∀ ctx b, (killService ctx b).trace.all (fun e => !isStart e) = true) ∧
    (∀ ctx b, (getService ctx b).trace.all (fun e => !isStart e) = true) :=
  ⟨run_start_first, kill_no_start, get_no_start⟩

/-- Counterexample for C3 as stated: `kill service --name demo` issues
the lifecycle operation Delete with no preceding Start call. -/
theorem claim_c3_counterexample :
    killService ctxKillDemo okBackend = ⟨[Event.delete ⟨"demo", "", "", []⟩], [], []⟩ ∧
    isLifecycle (Event.delete ⟨"demo", "", "", []⟩) = true ∧
    startPrecedesLifecycle [Event.delete ⟨"demo", "", "", []⟩] = false := by decide

/-- Claim C4 (amended): composition starts with the `MICRO_`-marked
ambient variables and appends, for each env flag entry, the trimmed
versions of exactly those comma segments that are non-empty BEFORE
trimming (a whitespace-only segment therefore survives as an empty
string); composing with `["FOO=1, BAR=2"]` appends `"FOO=1"` then
`"BAR=2"`. -/
theorem claim_c4_amended :
    (∀ environ env, appendEnvFlags (defaultEnv environ) env
        = defaultEnv environ ++ env.flatMap
            (fun evar => ((goSplitComma evar).filter (fun e => decide (e.length > 0))).map goTrimSpace)) ∧
    (∀ environ, appendEnvFlags (defaultEnv environ) ["FOO=1, BAR=2"]
        = defaultEnv environ ++ ["FOO=1", "BAR=2"]) := by
  refine ⟨?_, ?_⟩
  · intro environ env
    exact appendEnvFlags_eq env (defaultEnv environ)
  · intro environ
    rw [appendEnvFlags_eq]
    exact congrArg (defaultEnv environ ++ ·) (by decide)

/-- Counterexample for C4 as stated: the flag entry `"FOO=1, ,BAR=2"`
has a whitespace-only segment, which the code appends as `""` instead of
discarding as the claim requires. -/
theorem claim_c4_counterexample :
    appendEnvFlags [] ["FOO=1, ,BAR=2"] = ["FOO=1", "", "BAR=2"] ∧
    specExtraSegments ["FOO=1, ,BAR=2"] = ["FOO=1", "BAR=2"] ∧
    ¬ appendEnvFlags [] ["FOO=1, ,BAR=2"] = specExtraSegments ["FOO=1, ,BAR=2"] := by decide

/-- Claim C5 (amended): in a rendered row every empty field EXCEPT NAME
(VERSION, SOURCE, STATUS, BUILD, and the owner and group metadata
values, each independently of the other) is replaced by the sentinel
`"n/a"`; NAME is rendered verbatim. -/
theorem claim_c5_amended :
    ∀ s : Service,
      (renderRow s).headD "" = s.name ∧
      (s.version = "" → (renderRow s).get? 1 = some "n/a") ∧
      (s.source = "" → (renderRow s).get? 2 = some "n/a") ∧
      (mlookup s.metadata "status" = "" → (renderRow s).get? 3 = some "n/a") ∧
      (mlookup s.metadata "build" = "" → (renderRow s).get? 4 = some "n/a") ∧
      (mlookup s.metadata "owner" = "" →
        (renderRow s).get? 5
          = some ("owner=n/a,group=" ++ parse (mlookup s.metadata "group"))) ∧
      (mlookup s.metadata "group" = "" →
        (renderRow s).get? 5
          = some ("owner=" ++ parse (mlookup s.metadata "owner") ++ ",group=n/a")) ∧
      (mlookup s.metadata "owner" = "" → mlookup s.metadata "group" = "" →
        (renderRow s).get? 5 = some "owner=n/a,group=n/a") := by
  intro s
  refine ⟨rfl, ?_, ?_, ?_, ?_, ?_, ?_, ?_⟩
  · intro h; simp [renderRow, parse, h]
  · intro h; simp [renderRow, parse, h]
  · intro h; simp [renderRow, parse, h]
  · intro h; simp [renderRow, parse, h]
  · intro h; simp [renderRow, parse, h]
  · intro h
    simp [renderRow, parse, h]
    rw [String.append_assoc]
    rfl
  · intro h1 h2; simp [renderRow, parse, h1, h2]

/-- Witness for C5 (amended): a service with every optional field empty,
one with only owner missing (group renders verbatim), and one with only
group missing (owner renders verbatim). -/
theorem claim_c5_witness :
    ((renderRow ⟨"x", "", "", []⟩).get? 1 = some "n/a") ∧
    ((renderRow ⟨"x", "", "", []⟩).get? 2 = some "n/a") ∧
    ((renderRow ⟨"x", "", "", []⟩).get? 3 = some "n/a") ∧
    ((renderRow ⟨"x", "", "", []⟩).get? 4 = some "n/a") ∧
    ((renderRow ⟨"x", "", "", []⟩).get? 5 = some "owner=n/a,group=n/a") ∧
    ((renderRow ⟨"y", "v", "s", [("group", "g")]⟩).get? 5 = some "owner=n/a,group=g") ∧
    ((renderRow ⟨"z", "v", "s", [("owner", "o")]⟩).get? 5 = some "owner=o,group=n/a") :=
  ⟨(claim_c5_amended ⟨"x", "", "", []⟩).2.1 rfl,
   (claim_c5_amended ⟨"x", "", "", []⟩).2.2.1 rfl,
   (claim_c5_amended ⟨"x", "", "", []⟩).2.2.2.1 rfl,
   (claim_c5_amended ⟨"x", "", "", []⟩).2.2.2.2.1 rfl,
   (claim_c5_amended ⟨"x", "", "", []⟩).2.2.2.2.2.2.2 rfl rfl,
   ((claim_c5_amended ⟨"y", "v", "s", [("group", "g")]⟩).2.2.2.2.2.1 rfl).trans (by decide),
   ((claim_c5_amended ⟨"z", "v", "s", [("owner", "o")]⟩).2.2.2.2.2.2.1 rfl).trans (by decide)⟩

/-- Counterexample for C5 as stated: a service whose NAME is the empty
string is rendered with an empty NAME cell, not with `"n/a"`. -/
theorem claim_c5_counterexample :
    renderRow ⟨"", "v", "s", [("status", "x"), ("build", "y"), ("owner", "o"), ("group", "g")]⟩
      = ["", "v", "s", "x", "y", "owner=o,group=g"] ∧
    ¬ ("" : String) = "n/a" := by decide

/-- Claim C6: rendering an empty service list produces no output at all
(not even the header row); rendering a non-empty list emits the header
and then one row per service, the services ordered ascending by name. -/
theorem claim_c6 :
    renderTable [] = [] ∧
    ∀ l : List Service, ¬ l = [] →
      renderTable l = headerRow :: (sortServices l).map renderRow ∧
      (sortServices l).Perm l ∧
      ((sortServices l).map renderRow).length = l.length ∧
      (sortServices l).Pairwise (fun a b => nameLe a b = true) := by
  refine ⟨rfl, ?_⟩
  intro l hl
  refine ⟨?_, sortServices_perm l, ?_, sortServices_pairwise l⟩
  · unfold renderTable
    rw [if_neg hl]
  · rw [List.length_map]
    exact (sortServices_perm l).length_eq

/-- Witness for C6, on the two-service list `[svcB, svcA]`. -/
theorem claim_c6_witness :
    renderTable [svcB, svcA] = headerRow :: (sortServices [svcB, svcA]).map renderRow ∧
    (sortServices [svcB, svcA]).Perm [svcB, svcA] ∧
    ((sortServices [svcB, svcA]).map renderRow).length = [svcB, svcA].length ∧
    (sortServices [svcB, svcA]).Pairwise (fun a b => nameLe a b = true) :=
  (claim_c6.2 [svcB, svcA] (by decide))

/-- Claim C7: with an empty name flag the resolved name is the base of
`source` when `source` is non-empty, else the base of the working
directory; it is never empty, and for `source = pre ++ "/" ++ leaf`
(with `leaf` a non-empty slash-free segment) it equals `leaf`. -/
theorem claim_c7 :
    (∀ source cwd, ¬ resolveName "" source cwd = "") ∧
    (∀ source cwd, ¬ source = "" → resolveName "" source cwd = basepath source) ∧
    (∀ cwd, resolveName "" "" cwd = basepath cwd) ∧
    (∀ pre leaf cwd : String, ¬ leaf = "" → (∀ c ∈ leaf.data, ¬ c = '/') →
      resolveName "" (pre ++ "/" ++ leaf) cwd = leaf) := by
  refine ⟨?_, ?_, ?_, ?_⟩
  · intro source cwd
    unfold resolveName
    rw [if_pos rfl]
    split
    · exact basepath_ne_empty cwd
    · exact basepath_ne_empty source
  · intro source cwd h
    unfold resolveName
    rw [if_pos rfl, if_neg h]
  · intro cwd
    rfl
  · intro pre leaf cwd h1 h2
    have hpne : ¬ (pre ++ "/" ++ leaf) = "" := by
      intro hc
      have hd := congrArg String.data hc
      rw [String.data_append, String.data_append, data_empty] at hd
      simp at hd
    unfold resolveName
    rw [if_pos rfl, if_neg hpne]
    exact basepath_append_leaf pre leaf h1 h2

/-- Witness for C7: the canonical source `github.com/acme/svc` resolves
to the name `svc`. -/
theorem claim_c7_witness :
    ¬ resolveName "" "github.com/acme/svc" "/work" = "" ∧
    resolveName "" "github.com/acme/svc" "/work" = basepath "github.com/acme/svc" ∧
    resolveName "" ("github.com/acme" ++ "/" ++ "svc") "/work" = "svc" :=
  ⟨claim_c7.1 "github.com/acme/svc" "/work",
   claim_c7.2.1 "github.com/acme/svc" "/work" (by decide),
   claim_c7.2.2.2 "github.com/acme" "svc" "/work" (by decide) (by decide)⟩

/-- Claim C8 (amended): the local-mode execution command is rewritten to
target `source` only when `source` is non-empty AND the change of
working directory to `source` failed; when the directory change
succeeds the command stays `go run .`; remote mode always targets the
canonical source reference.  The command so computed is exactly what
Create receives. -/
theorem claim_c8_amended :
    (∀ source, ¬ source = "" → localExec source false = ["go", "run", source]) ∧
    (∀ source, localExec source true = ["go", "run", "."]) ∧
    (∀ ctx b cOk, ¬ ctx.args = [] → ctx.localMode = true → b.initRes = none → b.startRes = none →
      (runService ctx b cOk).trace.get? 2
        = some (Event.create (mkService ctx) (localExec (resolvedSource ctx) cOk) (composedEnv ctx))) ∧
    (∀ ctx b cOk, ¬ ctx.args = [] → ctx.localMode = false → ¬ resolvedSource ctx = "" →
      b.startRes = none →
      (runService ctx b cOk).trace.get? 1
        = some (Event.create (mkService ctx) ["go", "run", resolvedSource ctx] (composedEnv ctx))) := by
  refine ⟨?_, ?_, ?_, ?_⟩
  · intro source h
    unfold localExec
    rw [if_neg h]
    rfl
  · intro source
    unfold localExec
    split_ifs <;> first | rfl | simp_all
  · intro ctx b cOk ha hl hi hs
    unfold runService
    simp only [ha, hl, hi, hs, if_neg, ite_false]
    rcases b.createRes with _ | ec <;> rcases b.deleteRes with _ | ed <;>
      rcases b.stopRes with _ | es <;> simp [ha]
  · intro ctx b cOk ha hl hsrc hs
    unfold runService
    simp only [hl, hs]
    rcases b.createRes with _ | ec <;> simp [ha, hsrc]

/-- Witness for C8 (amended): a failed directory change rewrites the
command to the source; the create events of a local and of a remote run
carry exactly the computed commands. -/
theorem claim_c8_witness :
    localExec "/svc" false = ["go", "run", "/svc"] ∧
    (runService ctxLocalChdir okBackend false).trace.get? 2
      = some (Event.create (mkService ctxLocalChdir)
          (localExec (resolvedSource ctxLocalChdir) false) (composedEnv ctxLocalChdir)) ∧
    (runService ctxRemoteSvc okBackend true).trace.get? 1
      = some (Event.create (mkService ctxRemoteSvc)
          ["go", "run", resolvedSource ctxRemoteSvc] (composedEnv ctxRemoteSvc)) :=
  ⟨claim_c8_amended.1 "/svc" (by decide),
   claim_c8_amended.2.2.1 ctxLocalChdir okBackend false (by decide) rfl rfl rfl,
   claim_c8_amended.2.2.2 ctxRemoteSvc okBackend true (by decide) rfl (by decide) rfl⟩

/-- Counterexample for C8 as stated: with a non-empty source whose
directory change succeeds, the command passed to Create is still
`go run .`, not a command targeting the source. -/
theorem claim_c8_counterexample :
    runService ctxLocalChdir okBackend true =
      ⟨[Event.init "svc" "" "/svc", Event.start,
        Event.create ⟨"svc", "", "/svc", []⟩ ["go", "run", "."] [], Event.waitSignal,
        Event.delete ⟨"svc", "", "/svc", []⟩, Event.stop], [], []⟩ ∧
    ¬ (["go", "run", "."] : List String) = ["go", "run", "/svc"] := by decide

/-- Claim C9 (amended): remote run with positional argument `"service"`
and source flag `github.com/acme/svc` resolves the name to `svc`,
invokes Create with a command targeting `github.com/acme/svc`, never
waits for a signal, and returns right after the successful Create. -/
theorem claim_c9_amended :
    runService ctxRemoteSvc okBackend true =
      ⟨[Event.start,
        Event.create ⟨"svc", "", "github.com/acme/svc", []⟩
          ["go", "run", "github.com/acme/svc"] []], [], []⟩ ∧
    (runService ctxRemoteSvc okBackend true).trace.all
      (fun e => !(e == Event.waitSignal)) = true := by
  decide

/-- Counterexample for C9 as stated: with only the source flag and no
positional argument, run prints the usage message and performs no
backend call at all — Create is never invoked. -/
theorem claim_c9_counterexample :
    runService ctxRemoteNoArgs okBackend true = ⟨[], [RunUsage], []⟩ := by decide

/-- Claim C10 (amended): `ps` with no positional argument lists the
backend's services and renders rows ordered `a` then `b`; `ps service`
with no name flag instead prints the usage message and renders nothing. -/
theorem claim_c10_amended :
    getService ctxPsList listBackend =
      ⟨[Event.listSvcs], [], [headerRow, renderRow svcA, renderRow svcB]⟩ := by decide

/-- Counterexample for C10 as stated: `ps service` with no name flag
prints the usage message and renders no table, even though the backend
holds services `b` and `a`. -/
theorem claim_c10_counterexample :
    getService ctxPsService listBackend = ⟨[], [GetUsage], []⟩ := by decide
